import Mathlib

/-!
Verification of the sink engine in src/src/pulsecore/sink.c.

The development is a shallow embedding of that file. Pure helper routines of
the wider tree (sample-util, volume, memblock) that sink.c calls but that are
not under src/ are modelled from the natural-language specification; each such
definition carries a doc comment starting with "Modelled from the spec:".
Everything else is translated directly from sink.c; line numbers in the doc
comments refer to that file.
-/

namespace PulseSink

/-- Sample specification of a sink. Only the data the sink code inspects is
kept: the frame size in bytes (rate and format enter sink.c only through it)
and the channel count. -/
structure SampleSpec where
  frameSize : Nat
  channels : Nat
deriving Repr, DecidableEq

/-- Modelled from the spec: pa_frame_aligned, true when a byte count is a
whole number of frames. -/
def pa_frame_aligned (l : Nat) (ss : SampleSpec) : Bool :=
  l % ss.frameSize == 0

/-- Modelled from the spec: pa_frame_align rounds a byte count down to a
whole number of frames. -/
def pa_frame_align (l : Nat) (ss : SampleSpec) : Nat :=
  l - l % ss.frameSize

/-- A reference-counted memory block: its byte contents plus the silence tag
that pa_memblock_is_silence reads. Reference counts have no observable
effect in this pure model and are omitted. -/
structure MemBlock where
  data : List Nat
  isSilence : Bool
deriving Repr, DecidableEq

/-- A pa_memchunk: a window (index, length) into a memory block. -/
structure MemChunk where
  memblock : MemBlock
  index : Nat
  length : Nat
deriving Repr, DecidableEq

/-- The bytes a chunk denotes: the window it selects inside its block. -/
def MemChunk.bytes (c : MemChunk) : List Nat :=
  (c.memblock.data.drop c.index).take c.length

/-- PA_VOLUME_NORM, the neutral software volume. -/
def PA_VOLUME_NORM : Nat := 0x10000

/-- A pa_cvolume: one volume per channel. -/
structure CVolume where
  values : List Nat
deriving Repr, DecidableEq

/-- Modelled from the spec: pa_cvolume_is_norm, all channels at the neutral
volume. -/
def CVolume.isNorm (v : CVolume) : Bool :=
  v.values.all (fun x => x == PA_VOLUME_NORM)

/-- Modelled from the spec: pa_cvolume_is_muted, all channels at zero. -/
def CVolume.isMuted (v : CVolume) : Bool :=
  v.values.all (fun x => x == 0)

/-- Modelled from the spec: pa_sw_cvolume_multiply combines two volumes
channel-wise on the linear PA_VOLUME_NORM scale. -/
def pa_sw_cvolume_multiply (a b : CVolume) : CVolume :=
  ⟨(a.values.zip b.values).map (fun p => p.1 * p.2 / PA_VOLUME_NORM)⟩

/-- The five sink lifecycle states (pulsecore/sink.h). -/
inductive SinkState where
  | INIT
  | IDLE
  | RUNNING
  | SUSPENDED
  | UNLINKED
deriving Repr, DecidableEq

/-- PA_SINK_OPENED: the sink is rendering audio. -/
def PA_SINK_OPENED (st : SinkState) : Bool :=
  st == .RUNNING || st == .IDLE

/-- PA_SINK_LINKED: the sink is registered and alive. -/
def PA_SINK_LINKED (st : SinkState) : Bool :=
  st == .RUNNING || st == .IDLE || st == .SUSPENDED

/-- The sentinel (pa_usec_t) -1 that marks a latency request as unset;
pa_usec_t is a 64-bit unsigned integer. -/
def PA_USEC_INVALID : Nat := 2 ^ 64 - 1

/-- Outcome of pa_sink_input_peek for one input during one render pass:
either failure or a borrowed chunk with the per-input volume. The peek
callback lives in the sink-input object, outside src/; one render pass calls
it at most once per input and always with the same requested length
(sink.c:469 passes the unmodified *length), so its outcome for the pass is
plain data here. -/
structure PeekResult where
  chunk : MemChunk
  volume : CVolume
deriving Repr, DecidableEq

/-- The slice of a pa_sink_input that sink.c reads: its index, the outcome
its peek callback would produce this pass, its requested sink latency
(PA_USEC_INVALID when unset) and whether a suspend callback is installed. -/
structure SinkInput where
  index : Nat
  peekResult : Option PeekResult
  requested_sink_latency : Nat
  hasSuspendCb : Bool
deriving Repr, DecidableEq

/-- The render-thread side of a sink (the thread_info block, sink.h). -/
structure ThreadInfo where
  inputs : List SinkInput
  soft_volume : CVolume
  soft_muted : Bool
  state : SinkState
  rewind_nbytes : Nat
  max_rewind : Nat
  requested_latency_valid : Bool
  requested_latency : Nat

/-- The sink object: the fields of struct pa_sink that the verified routines
touch. The monitor source is represented by whether it exists and whether it
is opened; core->mempool by its block_size_max; the property list by its
single key sink.c writes (PA_PROP_DEVICE_DESCRIPTION); the driver callback
table by the set_state function and presence flags for request_rewind and
update_requested_latency. -/
structure Sink where
  index : Nat
  name : String
  descProp : Option String
  state : SinkState
  sample_spec : SampleSpec
  silence : MemChunk
  min_latency : Nat
  max_latency : Nat
  block_size_max : Nat
  hasMonitor : Bool
  monitorOpened : Bool
  set_state_cb : Option (SinkState → Int)
  request_rewind_cb : Bool
  update_requested_latency_cb : Bool
  inputsCtl : List SinkInput
  thread_info : ThreadInfo

/-- Observable effects of the sink routines: hook firings, subscription
events, name-registry operations, and the callbacks invoked on inputs, on
the driver and on the monitor source. -/
inductive Event where
  | HookSinkUnlink
  | HookSinkUnlinkPost
  | HookSinkStateChanged
  | HookSinkProplistChanged
  | SubscriptionChange (idx : Nat)
  | SubscriptionRemove (idx : Nat)
  | NameregUnregister (name : String)
  | KillInput (idx : Nat)
  | SuspendInput (idx : Nat) (suspending : Bool)
  | MonitorSetDescription (d : String)
  | InputDrop (idx : Nat) (nbytes : Nat)
  | MonitorPost (c : MemChunk)
  | DriverRequestRewind
  | InputUpdateMaxRewind (idx : Nat) (nbytes : Nat)
  | MonitorSetMaxRewind (nbytes : Nat)
deriving Repr, DecidableEq

/-- MAX_MIX_CHANNELS (sink.c:49), the per-pass contributor cap. -/
def MAX_MIX_CHANNELS : Nat := 32

/-- MIX_BUFFER_LENGTH (sink.c:50) is PA_PAGE_SIZE; 4096 on the platforms the
repository targets. -/
def MIX_BUFFER_LENGTH : Nat := 4096

/-- One pa_mix_info entry produced by fill_mix_info: the borrowed chunk, the
per-input volume snapshot, and the back-reference to the input (the userdata
field holds the referenced input in the C code). -/
structure MixEntry where
  inputIndex : Nat
  chunk : MemChunk
  volume : CVolume
deriving Repr, DecidableEq

/-- The loop of fill_mix_info (sink.c:466-488) over the render-view inputs.
The accumulator is the local mixlength; maxinfo counts the remaining info
slots. Returns the collected entries and the final mixlength. A successful
peek first shrinks mixlength (sink.c:472-473), then a pure-silence chunk is
released and skipped (sink.c:475-478); only live chunks consume a slot. -/
def fmiLoop : List SinkInput → Nat → Nat → List MixEntry × Nat
  | [], mixlength, _ => ([], mixlength)
  | i :: rest, mixlength, maxinfo =>
    if maxinfo = 0 then ([], mixlength)
    else
      match i.peekResult with
      | none => fmiLoop rest mixlength maxinfo
      | some pr =>
        let ml := if mixlength == 0 || pr.chunk.length < mixlength then pr.chunk.length
                  else mixlength
        if pr.chunk.memblock.isSilence then fmiLoop rest ml maxinfo
        else
          let r := fmiLoop rest ml (maxinfo - 1)
          (⟨i.index, pr.chunk, pr.volume⟩ :: r.1, r.2)

/-- fill_mix_info (sink.c:457-494): run the loop starting from the requested
length and, when the final mixlength is positive, write it back into the
shared window length (sink.c:490-491). Returns the entries (whose count is
the n of the C code) and the finalized window length. -/
def fill_mix_info (s : Sink) (length : Nat) (maxinfo : Nat) : List MixEntry × Nat :=
  let r := fmiLoop s.thread_info.inputs length maxinfo
  (r.1, if r.2 > 0 then r.2 else length)

/-- Modelled from the spec: pa_memchunk_make_writable gives the caller a
chunk whose block it may mutate, cloning the shared block (copy-on-write);
bytes and length are preserved, the clone is a fresh pool block. -/
def pa_memchunk_make_writable (c : MemChunk) : MemChunk :=
  ⟨⟨c.bytes, false⟩, 0, c.length⟩

/-- Modelled from the spec: pa_silence_memchunk overwrites the window of the
chunk with the silence pattern (zero bytes in this model), in place. -/
def pa_silence_memchunk (c : MemChunk) : MemChunk :=
  ⟨⟨c.memblock.data.take c.index ++ List.replicate c.length 0 ++
      c.memblock.data.drop (c.index + c.length), c.memblock.isSilence⟩,
   c.index, c.length⟩

/-- Modelled from the spec: pa_volume_memchunk scales the samples in the
window of the chunk in place. The spec fixes no sample arithmetic and no
claim depends on it; the model scales each byte by the first channel volume
on the linear scale. -/
def pa_volume_memchunk (c : MemChunk) (v : CVolume) : MemChunk :=
  let f : Nat → Nat := fun b => b * v.values.headD PA_VOLUME_NORM / PA_VOLUME_NORM
  ⟨⟨c.memblock.data.take c.index ++ ((c.memblock.data.drop c.index).take c.length).map f ++
      c.memblock.data.drop (c.index + c.length), c.memblock.isSilence⟩,
   c.index, c.length⟩

/-- Modelled from the spec: pa_mix (pulsecore/sample-util.c, not under src/)
mixes the contributors into a fresh buffer of at most the given length and
returns the bytes produced and their count: the window shortened to the
shortest contributor, kept frame-aligned. The spec fixes no sample
arithmetic; the model takes the byte-wise sum modulo 256. -/
def pa_mix (info : List MixEntry) (length : Nat) (ss : SampleSpec) : List Nat × Nat :=
  let l := pa_frame_align (info.foldl (fun m e => min m e.chunk.length) length) ss
  ((List.range l).map (fun k => (info.foldl (fun a e => a + e.chunk.bytes.getD k 0) 0) % 256), l)

/-- The length defaulting at the head of pa_sink_render (sink.c:568-569): a
zero request becomes the frame-aligned MIX_BUFFER_LENGTH. -/
def defaultRenderLength (s : Sink) (length : Nat) : Nat :=
  if length = 0 then pa_frame_align MIX_BUFFER_LENGTH s.sample_spec else length

/-- The clamp to the pool block size (sink.c:571-573) applied after the
defaulting: together with defaultRenderLength this is the effective
requested length of one render call. -/
def effectiveRenderLength (s : Sink) (length : Nat) : Nat :=
  if defaultRenderLength s length > s.block_size_max
  then pa_frame_align s.block_size_max s.sample_spec
  else defaultRenderLength s length

/-- The result chunk of pa_sink_render (sink.c:579-619), by contributor
count: zero contributors alias the cached silence chunk truncated to the
window; one contributor aliases its chunk truncated to the window, with the
combined soft and per-input volume applied to a writable copy when it is not
neutral (silence when muted); several contributors are mixed into a fresh
block. -/
def renderChunk (s : Sink) (info : List MixEntry) (length : Nat) : MemChunk :=
  match info with
  | [] =>
    let r := s.silence
    if r.length > length then { r with length := length } else r
  | [e] =>
    let r := e.chunk
    let r := if r.length > length then { r with length := length } else r
    let volume := pa_sw_cvolume_multiply s.thread_info.soft_volume e.volume
    if s.thread_info.soft_muted || !volume.isNorm then
      let r := pa_memchunk_make_writable r
      if s.thread_info.soft_muted || volume.isMuted then pa_silence_memchunk r
      else pa_volume_memchunk r volume
    else r
  | _ =>
    let m := pa_mix info length s.sample_spec
    ⟨⟨m.1, false⟩, 0, m.2⟩

/-- inputs_drop (sink.c:496-552): every input still in the render map is
advanced by the produced length via pa_sink_input_drop; the reference
bookkeeping of matched and vanished entries has no observable effect in
this pure model. -/
def inputs_drop_events (s : Sink) (length : Nat) : List Event :=
  s.thread_info.inputs.map (fun i => Event.InputDrop i.index length)

/-- Result of one pa_sink_render call: the produced chunk, the sink with its
pending rewind cleared, and the observable effects (input drops and the
monitor post). -/
structure RenderOut where
  result : MemChunk
  sink : Sink
  events : List Event

/-- pa_sink_render (sink.c:554-628). Clears the pending rewind, defaults and
clamps the length, gathers contributors only when the render-thread state is
RUNNING (sink.c:577), produces the result chunk, advances the inputs when
running, and posts to an opened monitor source. -/
def pa_sink_render (s : Sink) (length : Nat) : RenderOut :=
  let s := { s with thread_info := { s.thread_info with rewind_nbytes := 0 } }
  let length := effectiveRenderLength s length
  let fr := if s.thread_info.state == .RUNNING then fill_mix_info s length MAX_MIX_CHANNELS
            else ([], length)
  let result := renderChunk s fr.1 fr.2
  let dropEv := if s.thread_info.state == .RUNNING then inputs_drop_events s result.length else []
  let postEv := if s.hasMonitor && s.monitorOpened then [Event.MonitorPost result] else []
  ⟨result, s, dropEv ++ postEv⟩

/-- pa_sink_request_rewind (sink.c:1241-1257): a zero request defaults to
max_rewind, the request is clamped to max_rewind, and it is stored only when
it exceeds the current pending count, in which case the driver
request_rewind callback is invoked when installed. -/
def pa_sink_request_rewind (s : Sink) (nbytes : Nat) : Sink × List Event :=
  let nbytes := if nbytes = 0 then s.thread_info.max_rewind else nbytes
  let nbytes := min nbytes s.thread_info.max_rewind
  if nbytes ≤ s.thread_info.rewind_nbytes then (s, [])
  else
    ({ s with thread_info := { s.thread_info with rewind_nbytes := nbytes } },
     if s.request_rewind_cb then [Event.DriverRequestRewind] else [])

/-- pa_sink_set_max_rewind (sink.c:1304-1320): when the value changes it is
stored and broadcast to every render-view input and to the monitor source.
The pending rewind count is not touched. -/
def pa_sink_set_max_rewind (s : Sink) (max_rewind : Nat) : Sink × List Event :=
  if max_rewind == s.thread_info.max_rewind then (s, [])
  else
    ({ s with thread_info := { s.thread_info with max_rewind := max_rewind } },
     s.thread_info.inputs.map (fun i => Event.InputUpdateMaxRewind i.index max_rewind) ++
       if s.hasMonitor then [Event.MonitorSetMaxRewind max_rewind] else [])

/-- The scan of sink.c:1269-1273: fold over the render-view inputs keeping
the smallest requested sink latency, starting from and ignoring the unset
sentinel. -/
def requestedLatencyFold (l : List SinkInput) : Nat :=
  l.foldl
    (fun result i =>
      if i.requested_sink_latency != PA_USEC_INVALID &&
          (result == PA_USEC_INVALID || i.requested_sink_latency < result)
      then i.requested_sink_latency else result)
    PA_USEC_INVALID

/-- pa_sink_get_requested_latency_within_thread (sink.c:1259-1287): return
the cache when valid; otherwise compute the minimum requested latency over
the inputs, clamp it when some input supplied a value (the max endpoint
first, each endpoint only when nonzero, sink.c:1275-1281), store it in the
cache and mark the cache valid. -/
def pa_sink_get_requested_latency_within_thread (s : Sink) : Nat × Sink :=
  if s.thread_info.requested_latency_valid then (s.thread_info.requested_latency, s)
  else
    let result := requestedLatencyFold s.thread_info.inputs
    let result :=
      if result != PA_USEC_INVALID then
        let r1 := if s.max_latency > 0 && result > s.max_latency then s.max_latency else result
        if s.min_latency > 0 && r1 < s.min_latency then s.min_latency else r1
      else result
    (result,
     { s with thread_info :=
        { s.thread_info with requested_latency := result, requested_latency_valid := true } })

/-- The requested sink latencies actually supplied by the inputs, in roster
order: the values different from the unset sentinel (spec section 4.6,
"ignoring the sentinel"). -/
def suppliedLatencies (l : List SinkInput) : List Nat :=
  (l.filter (fun i => i.requested_sink_latency != PA_USEC_INVALID)).map
    (fun i => i.requested_sink_latency)

/-- The requested-latency result as the spec words it (section 4.6): the
minimum over the inputs that supplied a value, clamped to the latency range
with each endpoint applied only when nonzero; the sentinel when no input
supplied a value. -/
def specRequestedLatency (s : Sink) : Nat :=
  match suppliedLatencies s.thread_info.inputs with
  | [] => PA_USEC_INVALID
  | v :: vs =>
    let m := vs.foldl min v
    let m := if s.max_latency > 0 && m > s.max_latency then s.max_latency else m
    if s.min_latency > 0 && m < s.min_latency then s.min_latency else m

/-- reset_callbacks (sink.c:108-119): all driver callbacks are cleared. -/
def reset_callbacks (s : Sink) : Sink :=
  { s with set_state_cb := none, request_rewind_cb := false,
           update_requested_latency_cb := false }

/-- Result of the internal state-transition routine: the value it returns,
the updated sink and the observable effects. -/
structure StateResult where
  ret : Int
  sink : Sink
  events : List Event

/-- sink_set_state (sink.c:258-295). Target equal to current is a no-op.
Otherwise the installed set_state driver callback runs first and a negative
return aborts the transition with no change; then the synchronous SET_STATE
message mirrors the state into thread_info (sink.c:275, 1150-1153), the
control-side state is stored, the input suspend callbacks fire when the
SUSPENDED boundary was crossed, and SINK_STATE_CHANGED fires unless the new
state is UNLINKED. -/
def sink_set_state (s : Sink) (state : SinkState) : StateResult :=
  if s.state == state then ⟨0, s, []⟩
  else
    let suspend_change :=
      (s.state == .SUSPENDED && PA_SINK_OPENED state) ||
        (PA_SINK_OPENED s.state && state == .SUSPENDED)
    let cbFailed : Bool := match s.set_state_cb with
      | some cb => decide (cb state < 0)
      | none => false
    if cbFailed then ⟨-1, s, []⟩
    else
      let s := { s with thread_info := { s.thread_info with state := state } }
      let s := { s with state := state }
      let suspendEv :=
        if suspend_change then
          s.inputsCtl.filterMap (fun i =>
            if i.hasSuspendCb then some (Event.SuspendInput i.index (state == .SUSPENDED))
            else none)
        else []
      let hookEv := if state != .UNLINKED then [Event.HookSinkStateChanged] else []
      ⟨0, s, suspendEv ++ hookEv⟩

/-- Result of pa_sink_unlink: the updated sink and the observable effects. -/
structure UnlinkResult where
  sink : Sink
  events : List Event

/-- pa_sink_unlink (sink.c:317-360). Fires SINK_UNLINK when linked,
unregisters the name unless already UNLINKED, removes the sink from the core
index (a no-op when absent, not observable), kills every input still in the
control roster, moves the state to UNLINKED (through sink_set_state when
linked, whose return is ignored; by direct store otherwise), resets the
callbacks, unlinks the monitor source (itself idempotent, modelled as
closing it), and when it was linked posts the REMOVE subscription and fires
SINK_UNLINK_POST. -/
def pa_sink_unlink (s : Sink) : UnlinkResult :=
  let linked := PA_SINK_LINKED s.state
  let ev1 : List Event := if linked then [.HookSinkUnlink] else []
  let ev2 : List Event := if s.state != .UNLINKED then [.NameregUnregister s.name] else []
  let kills := s.inputsCtl.map (fun i => Event.KillInput i.index)
  let s := { s with inputsCtl := [] }
  let st := if linked then sink_set_state s .UNLINKED
            else ⟨0, { s with state := .UNLINKED }, []⟩
  let s := reset_callbacks st.sink
  let s := if s.hasMonitor then { s with monitorOpened := false } else s
  let ev3 : List Event := if linked then [.SubscriptionRemove s.index, .HookSinkUnlinkPost] else []
  ⟨s, ev1 ++ ev2 ++ kills ++ st.events ++ ev3⟩

/-- pa_sink_set_description (sink.c:892-921). Returns untouched when the
argument is absent and no description is stored, or when both are present
and equal; otherwise stores or unsets the property, renames the monitor
source, and for a linked sink posts a CHANGE subscription and fires
SINK_PROPLIST_CHANGED. -/
def pa_sink_set_description (s : Sink) (description : Option String) : Sink × List Event :=
  if description.isNone && !s.descProp.isSome then (s, [])
  else if (match s.descProp, description with
           | some o, some d => o == d
           | _, _ => false) then (s, [])
  else
    let s' := { s with descProp := description }
    let ev1 : List Event :=
      if s.hasMonitor then
        [.MonitorSetDescription ("Monitor Source of " ++ (description.getD s.name))]
      else []
    let ev2 : List Event :=
      if PA_SINK_LINKED s.state then [.SubscriptionChange s.index, .HookSinkProplistChanged]
      else []
    (s', ev1 ++ ev2)

/-- Construction parameters of pa_sink_new as sink.c reads them. Validity of
the externally computed predicates (pa_utf8_valid, pa_sample_spec_valid,
pa_channel_map_valid, pa_cvolume_valid, none of them under src/) is carried
as data: driverUtf8 is pa_utf8_valid(driver), nameUtf8NonEmpty is
pa_utf8_valid(name) && name[0] for the registry-returned name. -/
structure NewData where
  driver : Option String
  driverUtf8 : Bool
  nameUtf8NonEmpty : Bool
  sample_spec_is_set : Bool
  sample_spec_valid : Bool
  sampleChannels : Nat
  channel_map_is_set : Bool
  channel_map_valid : Bool
  channelMapChannels : Nat
  volume_is_set : Bool
  volume_valid : Bool
  volumeChannels : Nat
deriving Repr, DecidableEq

/-- The external collaborators of pa_sink_new, as the outcomes they produce:
the name-registry registration result, the SINK_NEW and SINK_FIXATE hook
verdicts, whether pa_channel_map_init_auto succeeds, and whether the monitor
source constructs. -/
structure NewEnv where
  nameregResult : Option String
  hookSinkNewOk : Bool
  hookSinkFixateOk : Bool
  channelMapInitAutoOk : Bool
  monitorOk : Bool
deriving Repr, DecidableEq

/-- How one call to pa_sink_new ends, one constructor per return point of
sink.c:121-256, in control-flow order. -/
inductive NewOutcome where
  | regFailed
  | vetoedNew
  | invalidDriver
  | invalidName
  | invalidSampleSpec
  | channelMapAutoFailed
  | invalidChannelMap
  | channelMapMismatch
  | invalidVolume
  | volumeMismatch
  | vetoedFixate
  | monitorFailed
  | success
deriving Repr, DecidableEq

/-- pa_sink_new (sink.c:121-256), reduced to its outcome and to whether the
sink name is still registered in the name registry when the call returns.
Registration happens first (sink.c:138); the SINK_NEW veto (145-149) and the
SINK_FIXATE veto (171-175) unregister explicitly; a monitor-source failure
(246-250) unregisters through pa_sink_unlink; the pa_return_null_if_fail
validation exits (151-166) return with no unwinding. -/
def pa_sink_new (env : NewEnv) (d : NewData) : NewOutcome × Bool :=
  match env.nameregResult with
  | none => (.regFailed, false)
  | some _ =>
    if !env.hookSinkNewOk then (.vetoedNew, false)
    else if !(d.driver.isNone || d.driverUtf8) then (.invalidDriver, true)
    else if !d.nameUtf8NonEmpty then (.invalidName, true)
    else if !(d.sample_spec_is_set && d.sample_spec_valid) then (.invalidSampleSpec, true)
    else if !d.channel_map_is_set && !env.channelMapInitAutoOk then (.channelMapAutoFailed, true)
    else
      let cmValid := if d.channel_map_is_set then d.channel_map_valid else true
      let cmCh := if d.channel_map_is_set then d.channelMapChannels else d.sampleChannels
      if !cmValid then (.invalidChannelMap, true)
      else if cmCh != d.sampleChannels then (.channelMapMismatch, true)
      else
        let vValid := if d.volume_is_set then d.volume_valid else true
        let vCh := if d.volume_is_set then d.volumeChannels else d.sampleChannels
        if !vValid then (.invalidVolume, true)
        else if vCh != d.sampleChannels then (.volumeMismatch, true)
        else if !env.hookSinkFixateOk then (.vetoedFixate, false)
        else if !env.monitorOk then (.monitorFailed, false)
        else (.success, true)

/-- Well-formedness of one input for a render pass: a successful peek hands
back a chunk of positive, frame-aligned length. pa_sink_input_peek
guarantees this (sink.c:482-483 asserts it for live chunks). -/
def peekWf (ss : SampleSpec) (i : SinkInput) : Bool :=
  match i.peekResult with
  | some pr => decide (0 < pr.chunk.length) && pa_frame_aligned pr.chunk.length ss
  | none => true

/-- An input that contributes nothing live to a pass: its peek fails or
yields a chunk of tagged silence. -/
def peekSilentOrFail (i : SinkInput) : Bool :=
  match i.peekResult with
  | some pr => pr.chunk.memblock.isSilence
  | none => true

/-- An input whose peek hands back a chunk of positive length. -/
def peekPositive (i : SinkInput) : Bool :=
  match i.peekResult with
  | some pr => decide (0 < pr.chunk.length)
  | none => true

/-- An input that yields a live, non-silent chunk this pass: exactly the
inputs fill_mix_info counts as contributors. -/
def peekLiveNonSilent (i : SinkInput) : Bool :=
  match i.peekResult with
  | some pr => !pr.chunk.memblock.isSilence
  | none => false

/-- The chunk lengths of all successful peeks of a pass, silent ones
included, in roster order. -/
def peekedLengths (l : List SinkInput) : List Nat :=
  l.filterMap (fun i => i.peekResult.map (fun pr => pr.chunk.length))

/-- The window length a render call ends up with: the effective requested
length, further shrunk by fill_mix_info when the render-thread state is
RUNNING (sink.c:577). -/
def renderWindow (s : Sink) (L : Nat) : Nat :=
  if s.thread_info.state == SinkState.RUNNING then
    (fill_mix_info s (effectiveRenderLength s L) MAX_MIX_CHANNELS).2
  else effectiveRenderLength s L

/-- A two-channel sample spec with two-byte frames, used by the concrete
instances below. -/
def exSpec : SampleSpec := ⟨2, 2⟩

/-- Neutral volume on two channels. -/
def exNorm : CVolume := ⟨[PA_VOLUME_NORM, PA_VOLUME_NORM]⟩

/-- A cached silence chunk: six zero bytes in a block tagged as silence. -/
def exSilence : MemChunk := ⟨⟨[0, 0, 0, 0, 0, 0], true⟩, 0, 6⟩

/-- A minimal sink used as the base of the concrete instances: idle, linked,
no inputs, no driver callbacks, no monitor. -/
def exSink : Sink :=
  { index := 0, name := "s0", descProp := none, state := .IDLE,
    sample_spec := exSpec, silence := exSilence, min_latency := 0, max_latency := 0,
    block_size_max := 64, hasMonitor := false, monitorOpened := false,
    set_state_cb := none, request_rewind_cb := false,
    update_requested_latency_cb := false, inputsCtl := [],
    thread_info := ⟨[], exNorm, false, .IDLE, 0, 0, false, 0⟩ }

/-- An input whose peek yields a live four-byte chunk at neutral volume. -/
def exInputLive : SinkInput :=
  ⟨1, some ⟨⟨⟨[1, 2, 3, 4], false⟩, 0, 4⟩, exNorm⟩, PA_USEC_INVALID, false⟩

/-- An input whose peek yields a six-byte live chunk. -/
def exInputLong : SinkInput :=
  ⟨2, some ⟨⟨⟨[5, 6, 7, 8, 9, 10], false⟩, 0, 6⟩, exNorm⟩, PA_USEC_INVALID, false⟩

/-- An input whose peek yields a two-byte chunk of tagged silence. -/
def exInputSilent : SinkInput :=
  ⟨3, some ⟨⟨⟨[0, 0], true⟩, 0, 2⟩, exNorm⟩, PA_USEC_INVALID, false⟩

/-- A running sink with one live input. -/
def exSinkRunning : Sink :=
  { exSink with thread_info :=
      { exSink.thread_info with
          state := .RUNNING,
          inputs := [exInputLive] } }

/-- A running sink whose only input peeks tagged silence. -/
def exSinkSilent : Sink :=
  { exSink with thread_info :=
      { exSink.thread_info with
          state := .RUNNING,
          inputs := [exInputSilent] } }

/-- A running sink with a live six-byte input followed by a silent two-byte
input, for the fill_mix_info window computation. -/
def exSinkTwo : Sink :=
  { exSink with thread_info :=
      { exSink.thread_info with
          state := .RUNNING,
          inputs := [exInputLong, exInputSilent] } }

/-- A linked sink with max_rewind 8 and no pending rewind. -/
def exSinkRewind : Sink :=
  { exSink with thread_info := { exSink.thread_info with max_rewind := 8 } }

/-- The rewind counterexample state: request a rewind of 6 while max_rewind
is 8, then shrink max_rewind to 4. The pending count stays 6, above the new
max_rewind. Both steps are routines of sink.c, so this state is reachable. -/
def exSinkRewindShrunk : Sink :=
  (pa_sink_set_max_rewind (pa_sink_request_rewind exSinkRewind 6).1 4).1

/-- An input requesting 30 usec of sink latency. -/
def exInputLat30 : SinkInput := ⟨4, none, 30, false⟩

/-- An input requesting 10 usec of sink latency. -/
def exInputLat10 : SinkInput := ⟨5, none, 10, false⟩

/-- An input with no latency request (the unset sentinel). -/
def exInputLatUnset : SinkInput := ⟨6, none, PA_USEC_INVALID, false⟩

/-- A sink with latency range [15, 100], an invalid latency cache, and
inputs requesting 30 and 10 usec. -/
def exSinkLat : Sink :=
  { exSink with
      min_latency := 15,
      max_latency := 100,
      thread_info := { exSink.thread_info with inputs := [exInputLat30, exInputLat10] } }

/-- A sink with latency range [5, 100], an invalid latency cache, and one
input that supplied no latency request. -/
def exSinkLatUnset : Sink :=
  { exSink with
      min_latency := 5,
      max_latency := 100,
      thread_info := { exSink.thread_info with inputs := [exInputLatUnset] } }

/-- An idle sink whose installed set_state driver callback always fails. -/
def exSinkCbFail : Sink :=
  { exSink with set_state_cb := some (fun _ => (-1 : Int)) }

/-- An idle, linked sink with a description stored and a monitor source. -/
def exSinkDesc : Sink :=
  { exSink with descProp := some "Built-in Audio", hasMonitor := true }

/-- Construction environment where everything external succeeds. -/
def exNewEnv : NewEnv := ⟨some "s0", true, true, true, true⟩

/-- Construction data whose driver string is not valid UTF-8 and whose other
fields are valid: one channel, spec set and valid, map and volume unset. -/
def exNewDataBadDriver : NewData :=
  ⟨some "bad", false, true, true, true, 1, false, true, 1, false, true, 1⟩

/-! Helper lemmas. -/

theorem pa_frame_align_le (l : Nat) (ss : SampleSpec) : pa_frame_align l ss ≤ l :=
  Nat.sub_le _ _

theorem pa_frame_align_aligned (l : Nat) (ss : SampleSpec) :
    pa_frame_aligned (pa_frame_align l ss) ss = true := by
  have h := Nat.div_add_mod l ss.frameSize
  have he : pa_frame_align l ss = ss.frameSize * (l / ss.frameSize) := by
    unfold pa_frame_align
    omega
  unfold pa_frame_aligned
  rw [he]
  simp [Nat.mul_mod_right]

theorem pa_frame_aligned_min {a b : Nat} {ss : SampleSpec}
    (ha : pa_frame_aligned a ss = true) (hb : pa_frame_aligned b ss = true) :
    pa_frame_aligned (min a b) ss = true := by
  rcases Nat.le_total a b with h | h
  · rwa [Nat.min_eq_left h]
  · rwa [Nat.min_eq_right h]

theorem effectiveRenderLength_le_block_size_max (s : Sink) (L : Nat) :
    effectiveRenderLength s L ≤ s.block_size_max := by
  unfold effectiveRenderLength
  split
  · exact pa_frame_align_le _ _
  · omega

theorem effectiveRenderLength_aligned (s : Sink) (L : Nat)
    (h : pa_frame_aligned L s.sample_spec = true) :
    pa_frame_aligned (effectiveRenderLength s L) s.sample_spec = true := by
  unfold effectiveRenderLength
  split
  · exact pa_frame_align_aligned _ _
  · unfold defaultRenderLength
    split
    · exact pa_frame_align_aligned _ _
    · exact h

theorem effectiveRenderLength_of_bounds (s : Sink) (L : Nat) (h0 : 0 < L)
    (hb : L ≤ s.block_size_max) : effectiveRenderLength s L = L := by
  have hd : defaultRenderLength s L = L := by
    unfold defaultRenderLength
    rw [if_neg (by omega)]
  unfold effectiveRenderLength
  rw [hd, if_neg (by omega)]

theorem foldlMin_le (l : List Nat) : ∀ a : Nat, l.foldl min a ≤ a := by
  induction l with
  | nil => intro a; exact Nat.le_refl a
  | cons x xs ih => intro a; exact Nat.le_trans (ih (min a x)) (Nat.min_le_left a x)

theorem foldlMin_pos (l : List Nat) : ∀ a : Nat, 0 < a → (∀ x ∈ l, 0 < x) →
    0 < l.foldl min a := by
  induction l with
  | nil => intro a ha _; exact ha
  | cons x xs ih =>
    intro a ha hx
    refine ih (min a x) ?_ ?_
    · have := hx x (List.mem_cons_self x xs)
      omega
    · intro y hy; exact hx y (List.mem_cons_of_mem x hy)

@[simp] theorem pa_memchunk_make_writable_length (c : MemChunk) :
    (pa_memchunk_make_writable c).length = c.length := rfl

@[simp] theorem pa_silence_memchunk_length (c : MemChunk) :
    (pa_silence_memchunk c).length = c.length := rfl

@[simp] theorem pa_volume_memchunk_length (c : MemChunk) (v : CVolume) :
    (pa_volume_memchunk c v).length = c.length := rfl

theorem fmiLoop_inv (P : Nat → Prop) (l : List SinkInput) :
    ∀ ml mi : Nat, 0 < ml → P ml →
      (∀ i ∈ l, ∀ pr, i.peekResult = some pr → 0 < pr.chunk.length ∧ P pr.chunk.length) →
      0 < (fmiLoop l ml mi).2 ∧ (fmiLoop l ml mi).2 ≤ ml ∧ P (fmiLoop l ml mi).2 := by
  induction l with
  | nil =>
    intro ml mi hml hP _
    exact ⟨hml, Nat.le_refl _, hP⟩
  | cons i rest ih =>
    intro ml mi hml hP hpk
    have hrest : ∀ j ∈ rest, ∀ q, j.peekResult = some q → 0 < q.chunk.length ∧ P q.chunk.length :=
      fun j hj q h => hpk j (List.mem_cons_of_mem i hj) q h
    simp only [fmiLoop]
    by_cases hmi : mi = 0
    · rw [if_pos hmi]
      exact ⟨hml, Nat.le_refl _, hP⟩
    · rw [if_neg hmi]
      cases hpr : i.peekResult with
      | none => exact ih ml mi hml hP hrest
      | some pr =>
        obtain ⟨hlen, hPlen⟩ := hpk i (List.mem_cons_self i rest) pr hpr
        simp only
        by_cases hc : (ml == 0 || decide (pr.chunk.length < ml)) = true
        · rw [if_pos hc]
          have hlt : pr.chunk.length ≤ ml := by
            have hor := hc
            simp only [Bool.or_eq_true, beq_iff_eq, decide_eq_true_eq] at hor
            omega
          by_cases hsil : pr.chunk.memblock.isSilence = true
          · rw [if_pos hsil]
            obtain ⟨h1, h2, h3⟩ := ih pr.chunk.length mi hlen hPlen hrest
            exact ⟨h1, Nat.le_trans h2 hlt, h3⟩
          · rw [if_neg hsil]
            obtain ⟨h1, h2, h3⟩ := ih pr.chunk.length (mi - 1) hlen hPlen hrest
            exact ⟨h1, Nat.le_trans h2 hlt, h3⟩
        · rw [if_neg hc]
          by_cases hsil : pr.chunk.memblock.isSilence = true
          · rw [if_pos hsil]
            exact ih ml mi hml hP hrest
          · rw [if_neg hsil]
            exact ih ml (mi - 1) hml hP hrest

theorem fmiLoop_entries (l : List SinkInput) :
    ∀ ml mi : Nat, ∀ e ∈ (fmiLoop l ml mi).1,
      ∃ i ∈ l, ∃ pr, i.peekResult = some pr ∧ e.chunk = pr.chunk := by
  induction l with
  | nil => intro ml mi e he; simp [fmiLoop] at he
  | cons i rest ih =>
    intro ml mi e he
    rw [fmiLoop] at he
    by_cases hmi : mi = 0
    · rw [if_pos hmi] at he
      simp at he
    · rw [if_neg hmi] at he
      cases hpr : i.peekResult with
      | none =>
        rw [hpr] at he
        obtain ⟨j, hj, pr, h1, h2⟩ := ih ml mi e he
        exact ⟨j, List.mem_cons_of_mem i hj, pr, h1, h2⟩
      | some pr =>
        rw [hpr] at he
        simp only at he
        by_cases hsil : pr.chunk.memblock.isSilence = true
        · rw [if_pos hsil] at he
          obtain ⟨j, hj, q, h1, h2⟩ := ih _ mi e he
          exact ⟨j, List.mem_cons_of_mem i hj, q, h1, h2⟩
        · rw [if_neg hsil] at he
          rcases List.mem_cons.mp he with h | h
          · exact ⟨i, List.mem_cons_self i rest, pr, hpr, by rw [h]⟩
          · obtain ⟨j, hj, q, h1, h2⟩ := ih _ (mi - 1) e h
            exact ⟨j, List.mem_cons_of_mem i hj, q, h1, h2⟩

theorem fmiLoop_no_live (l : List SinkInput)
    (h : ∀ i ∈ l, peekSilentOrFail i = true) :
    ∀ ml mi : Nat, (fmiLoop l ml mi).1 = [] := by
  induction l with
  | nil => intro ml mi; rfl
  | cons i rest ih =>
    intro ml mi
    have hi := h i (List.mem_cons_self i rest)
    have hrest : ∀ j ∈ rest, peekSilentOrFail j = true :=
      fun j hj => h j (List.mem_cons_of_mem i hj)
    rw [fmiLoop]
    by_cases hmi : mi = 0
    · rw [if_pos hmi]
    · rw [if_neg hmi]
      cases hpr : i.peekResult with
      | none => exact ih hrest ml mi
      | some pr =>
        have hsil : pr.chunk.memblock.isSilence = true := by
          unfold peekSilentOrFail at hi
          rw [hpr] at hi
          exact hi
        simp only
        rw [if_pos hsil]
        exact ih hrest _ mi

theorem fmiLoop_window_count (l : List SinkInput) :
    ∀ ml mi : Nat, 0 < ml → l.length ≤ mi →
      (∀ i ∈ l, peekPositive i = true) →
      (fmiLoop l ml mi).2 = (peekedLengths l).foldl min ml ∧
      (fmiLoop l ml mi).1.length = (l.filter peekLiveNonSilent).length := by
  induction l with
  | nil =>
    intro ml mi hml _ _
    simp [fmiLoop, peekedLengths]
  | cons i rest ih =>
    intro ml mi hml hcap hpos
    have hmi : ¬ mi = 0 := by
      simp only [List.length_cons] at hcap
      omega
    have hposr : ∀ j ∈ rest, peekPositive j = true :=
      fun j hj => hpos j (List.mem_cons_of_mem i hj)
    have hcapr : rest.length ≤ mi := by
      simp only [List.length_cons] at hcap
      omega
    simp only [fmiLoop]
    rw [if_neg hmi]
    cases hpr : i.peekResult with
    | none =>
      have hfil : peekLiveNonSilent i = false := by
        unfold peekLiveNonSilent
        rw [hpr]
      have hpl : peekedLengths (i :: rest) = peekedLengths rest := by
        unfold peekedLengths
        simp [List.filterMap_cons, hpr]
      obtain ⟨h1, h2⟩ := ih ml mi hml hcapr hposr
      rw [hpl, List.filter_cons_of_neg (by simp [hfil])]
      exact ⟨h1, h2⟩
    | some pr =>
      have hlen : 0 < pr.chunk.length := by
        have h := hpos i (List.mem_cons_self i rest)
        unfold peekPositive at h
        rw [hpr] at h
        exact of_decide_eq_true h
      have hpl : peekedLengths (i :: rest) = pr.chunk.length :: peekedLengths rest := by
        unfold peekedLengths
        simp [List.filterMap_cons, hpr]
      rw [hpl]
      simp only [List.foldl_cons]
      by_cases hc : (ml == 0 || decide (pr.chunk.length < ml)) = true
      · rw [if_pos hc]
        have hmin : min ml pr.chunk.length = pr.chunk.length := by
          have hor := hc
          simp only [Bool.or_eq_true, beq_iff_eq, decide_eq_true_eq] at hor
          omega
        rw [hmin]
        by_cases hsil : pr.chunk.memblock.isSilence = true
        · rw [if_pos hsil]
          have hfil : peekLiveNonSilent i = false := by
            unfold peekLiveNonSilent
            rw [hpr]
            simp [hsil]
          obtain ⟨h1, h2⟩ := ih pr.chunk.length mi hlen hcapr hposr
          rw [List.filter_cons_of_neg (by simp [hfil])]
          exact ⟨h1, h2⟩
        · rw [if_neg hsil]
          have hfil : peekLiveNonSilent i = true := by
            unfold peekLiveNonSilent
            rw [hpr]
            simp [hsil]
          obtain ⟨h1, h2⟩ := ih pr.chunk.length (mi - 1) hlen
            (by simp only [List.length_cons] at hcap; omega) hposr
          rw [List.filter_cons_of_pos hfil]
          refine ⟨h1, ?_⟩
          simp only [List.length_cons]
          omega
      · rw [if_neg hc]
        have hmin : min ml pr.chunk.length = ml := by
          have hor := hc
          simp only [Bool.or_eq_true, beq_iff_eq, decide_eq_true_eq, not_or] at hor
          omega
        rw [hmin]
        by_cases hsil : pr.chunk.memblock.isSilence = true
        · rw [if_pos hsil]
          have hfil : peekLiveNonSilent i = false := by
            unfold peekLiveNonSilent
            rw [hpr]
            simp [hsil]
          obtain ⟨h1, h2⟩ := ih ml mi hml hcapr hposr
          rw [List.filter_cons_of_neg (by simp [hfil])]
          exact ⟨h1, h2⟩
        · rw [if_neg hsil]
          have hfil : peekLiveNonSilent i = true := by
            unfold peekLiveNonSilent
            rw [hpr]
            simp [hsil]
          obtain ⟨h1, h2⟩ := ih ml (mi - 1) hml
            (by simp only [List.length_cons] at hcap; omega) hposr
          rw [List.filter_cons_of_pos hfil]
          refine ⟨h1, ?_⟩
          simp only [List.length_cons]
          omega

theorem renderChunk_nil_length (s : Sink) (len : Nat) :
    (renderChunk s [] len).length = min s.silence.length len := by
  simp only [renderChunk]
  split <;> (try dsimp only) <;> omega

theorem renderChunk_one_length (s : Sink) (e : MixEntry) (len : Nat) :
    (renderChunk s [e] len).length = min e.chunk.length len := by
  simp only [renderChunk]
  split
  · split <;>
      simp only [pa_silence_memchunk_length, pa_volume_memchunk_length,
        pa_memchunk_make_writable_length] <;>
      (split <;> (try dsimp only) <;> omega)
  · split <;> (try dsimp only) <;> omega

theorem renderChunk_cons2_length (s : Sink) (a b : MixEntry) (t : List MixEntry) (len : Nat) :
    (renderChunk s (a :: b :: t) len).length = (pa_mix (a :: b :: t) len s.sample_spec).2 := rfl

theorem renderChunk_nil_spec (s : Sink) (len : Nat) :
    (renderChunk s [] len).memblock = s.silence.memblock ∧
    (renderChunk s [] len).index = s.silence.index ∧
    (renderChunk s [] len).length = min len s.silence.length ∧
    (renderChunk s [] len).bytes = s.silence.bytes.take (min len s.silence.length) := by
  simp only [renderChunk]
  split
  · next h =>
    refine ⟨rfl, rfl, by dsimp only; omega, ?_⟩
    simp only [MemChunk.bytes, List.take_take]
    congr 1
    omega
  · next h =>
    refine ⟨rfl, rfl, by omega, ?_⟩
    simp only [MemChunk.bytes, List.take_take]
    congr 1
    omega

theorem pa_mix_le (info : List MixEntry) (len : Nat) (ss : SampleSpec) :
    (pa_mix info len ss).2 ≤ len := by
  unfold pa_mix
  simp only
  refine Nat.le_trans (pa_frame_align_le _ _) ?_
  rw [show info.foldl (fun m e => min m e.chunk.length) len =
        (info.map (fun e => e.chunk.length)).foldl min len from (List.foldl_map _ _ _ _).symm]
  exact foldlMin_le _ _

theorem pa_mix_aligned (info : List MixEntry) (len : Nat) (ss : SampleSpec) :
    pa_frame_aligned (pa_mix info len ss).2 ss = true :=
  pa_frame_align_aligned _ _

theorem renderChunk_bounds (s : Sink) (info : List MixEntry) (len : Nat)
    (hsil : pa_frame_aligned s.silence.length s.sample_spec = true)
    (hal : pa_frame_aligned len s.sample_spec = true)
    (hent : ∀ e ∈ info, pa_frame_aligned e.chunk.length s.sample_spec = true) :
    (renderChunk s info len).length ≤ len ∧
    pa_frame_aligned (renderChunk s info len).length s.sample_spec = true := by
  match info with
  | [] =>
    rw [renderChunk_nil_length]
    exact ⟨Nat.min_le_right _ _, pa_frame_aligned_min hsil hal⟩
  | [e] =>
    rw [renderChunk_one_length]
    exact ⟨Nat.min_le_right _ _,
      pa_frame_aligned_min (hent e (List.mem_cons_self e [])) hal⟩
  | a :: b :: t =>
    rw [renderChunk_cons2_length]
    exact ⟨pa_mix_le _ _ _, pa_mix_aligned _ _ _⟩

theorem pa_sink_render_result (s : Sink) (L : Nat) :
    (pa_sink_render s L).result =
      renderChunk s
        (if s.thread_info.state == SinkState.RUNNING
         then fill_mix_info s (effectiveRenderLength s L) MAX_MIX_CHANNELS
         else ([], effectiveRenderLength s L)).1
        (if s.thread_info.state == SinkState.RUNNING
         then fill_mix_info s (effectiveRenderLength s L) MAX_MIX_CHANNELS
         else ([], effectiveRenderLength s L)).2 := rfl

theorem peekWf_spec {ss : SampleSpec} {i : SinkInput} {pr : PeekResult}
    (h : peekWf ss i = true) (hpr : i.peekResult = some pr) :
    0 < pr.chunk.length ∧ pa_frame_aligned pr.chunk.length ss = true := by
  unfold peekWf at h
  rw [hpr] at h
  simp only [Bool.and_eq_true, decide_eq_true_eq] at h
  exact h

theorem fill_mix_info_inv (s : Sink) (len mi : Nat)
    (hlen : 0 < len) (hal : pa_frame_aligned len s.sample_spec = true)
    (hin : ∀ i ∈ s.thread_info.inputs, peekWf s.sample_spec i = true) :
    0 < (fill_mix_info s len mi).2 ∧ (fill_mix_info s len mi).2 ≤ len ∧
    pa_frame_aligned (fill_mix_info s len mi).2 s.sample_spec = true := by
  have h := fmiLoop_inv (fun n => pa_frame_aligned n s.sample_spec = true)
    s.thread_info.inputs len mi hlen hal
    (fun i hi pr hpr => peekWf_spec (hin i hi) hpr)
  unfold fill_mix_info
  simp only
  rw [if_pos (by omega : (fmiLoop s.thread_info.inputs len mi).2 > 0)]
  exact h

theorem fill_mix_info_entries (s : Sink) (len mi : Nat) :
    ∀ e ∈ (fill_mix_info s len mi).1, ∃ i ∈ s.thread_info.inputs, ∃ pr,
      i.peekResult = some pr ∧ e.chunk = pr.chunk :=
  fun e he => fmiLoop_entries s.thread_info.inputs len mi e he

/-! Claim theorems. -/

/-- C1: for every call to pa_sink_render on an opened sink with a
frame-aligned requested length, under the stated well-formedness of the
silence cache and of the peek results, the returned chunk is no longer than
the effective requested length (the request defaulted when zero and clamped
to the pool block size), its length is frame-aligned for the sample spec of
the sink, and it is no longer than the pool block_size_max. -/
theorem pa_sink_render_length_bounds (s : Sink) (L : Nat)
    (hopen : PA_SINK_OPENED s.thread_info.state = true)
    (halign : pa_frame_aligned L s.sample_spec = true)
    (hsil : pa_frame_aligned s.silence.length s.sample_spec = true)
    (heff : 0 < effectiveRenderLength s L)
    (hin : ∀ i ∈ s.thread_info.inputs, peekWf s.sample_spec i = true) :
    (pa_sink_render s L).result.length ≤ effectiveRenderLength s L ∧
    pa_frame_aligned (pa_sink_render s L).result.length s.sample_spec = true ∧
    (pa_sink_render s L).result.length ≤ s.block_size_max := by
  rw [pa_sink_render_result]
  have heffal := effectiveRenderLength_aligned s L halign
  have heffb := effectiveRenderLength_le_block_size_max s L
  by_cases hrun : (s.thread_info.state == SinkState.RUNNING) = true
  · rw [if_pos hrun]
    obtain ⟨h0, hle, hal⟩ :=
      fill_mix_info_inv s (effectiveRenderLength s L) MAX_MIX_CHANNELS heff heffal hin
    have hent : ∀ e ∈ (fill_mix_info s (effectiveRenderLength s L) MAX_MIX_CHANNELS).1,
        pa_frame_aligned e.chunk.length s.sample_spec = true := by
      intro e he
      obtain ⟨i, hi, pr, hpr, hc⟩ := fill_mix_info_entries s _ _ e he
      rw [hc]
      exact (peekWf_spec (hin i hi) hpr).2
    obtain ⟨hb1, hb2⟩ := renderChunk_bounds s _ _ hsil hal hent
    exact ⟨Nat.le_trans hb1 hle, hb2, Nat.le_trans (Nat.le_trans hb1 hle) heffb⟩
  · rw [if_neg hrun]
    obtain ⟨hb1, hb2⟩ := renderChunk_bounds s [] (effectiveRenderLength s L) hsil heffal
      (by intro e he; simp at he)
    exact ⟨hb1, hb2, Nat.le_trans hb1 heffb⟩

/-- Witness for C1: the bounds evaluated on a concrete running sink with one
live four-byte input and an eight-byte request. -/
theorem pa_sink_render_length_bounds_witness :
    (0 < effectiveRenderLength exSinkRunning 8) ∧
    ((pa_sink_render exSinkRunning 8).result.length ≤ effectiveRenderLength exSinkRunning 8 ∧
     pa_frame_aligned (pa_sink_render exSinkRunning 8).result.length
       exSinkRunning.sample_spec = true ∧
     (pa_sink_render exSinkRunning 8).result.length ≤ exSinkRunning.block_size_max) :=
  ⟨by decide, pa_sink_render_length_bounds exSinkRunning 8 (by decide) (by decide) (by decide)
    (by decide) (by decide)⟩

/-- Counterexample to C2 as stated: a running sink whose only input peeks a
two-byte chunk of tagged silence. The silent chunk shrinks the shared window
inside fill_mix_info (sink.c:472-473 runs before the silence test of line
475) even though it is not counted as a contributor, so render(4) returns
the silence cache truncated to 2 bytes, not to min(4, silence.length) = 4. -/
theorem pa_sink_render_silence_counterexample :
    (pa_sink_render exSinkSilent 4).result.length ≠
      min 4 exSinkSilent.silence.length := by decide

/-- C2 amended: with zero contributors (the render-thread state is not
RUNNING, or no input yields a live non-silent chunk), render(L) returns a
chunk aliasing the cached silence chunk with its length truncated to
min(W, silence.length), where W is the finalized window length: the
effective requested length, further shrunk by the chunk lengths of the
successful peeks, silent ones included. When the state is not RUNNING (and
so when no peek succeeds at all), W is the effective requested length
itself. The bytes of the result equal the silence cache truncated to that
length. -/
theorem pa_sink_render_silence_identity (s : Sink) (L : Nat)
    (hopen : PA_SINK_OPENED s.thread_info.state = true)
    (hzero : s.thread_info.state ≠ SinkState.RUNNING ∨
      ∀ i ∈ s.thread_info.inputs, peekSilentOrFail i = true) :
    (pa_sink_render s L).result.memblock = s.silence.memblock ∧
    (pa_sink_render s L).result.index = s.silence.index ∧
    (pa_sink_render s L).result.length = min (renderWindow s L) s.silence.length ∧
    (pa_sink_render s L).result.bytes =
      s.silence.bytes.take (min (renderWindow s L) s.silence.length) := by
  rw [pa_sink_render_result]
  by_cases hrun : (s.thread_info.state == SinkState.RUNNING) = true
  · rw [if_pos hrun]
    have hnil : (fill_mix_info s (effectiveRenderLength s L) MAX_MIX_CHANNELS).1 = [] := by
      rcases hzero with h | h
      · exact absurd (by simpa using hrun) h
      · unfold fill_mix_info
        simp only
        exact fmiLoop_no_live s.thread_info.inputs h _ _
    have hw : renderWindow s L =
        (fill_mix_info s (effectiveRenderLength s L) MAX_MIX_CHANNELS).2 := by
      unfold renderWindow
      rw [if_pos hrun]
    rw [hnil, hw]
    exact renderChunk_nil_spec s _
  · rw [if_neg hrun]
    have hw : renderWindow s L = effectiveRenderLength s L := by
      unfold renderWindow
      rw [if_neg hrun]
    rw [hw]
    exact renderChunk_nil_spec s _

/-- Witness for the amended C2 at the concrete running sink whose only input
peeks tagged silence (window 2, silence cache 6 bytes). -/
theorem pa_sink_render_silence_identity_witness :
    (pa_sink_render exSinkSilent 4).result.memblock = exSinkSilent.silence.memblock ∧
    (pa_sink_render exSinkSilent 4).result.index = exSinkSilent.silence.index ∧
    (pa_sink_render exSinkSilent 4).result.length =
      min (renderWindow exSinkSilent 4) exSinkSilent.silence.length ∧
    (pa_sink_render exSinkSilent 4).result.bytes =
      exSinkSilent.silence.bytes.take
        (min (renderWindow exSinkSilent 4) exSinkSilent.silence.length) :=
  pa_sink_render_silence_identity exSinkSilent 4 (by decide) (by decide)

/-- Counterexample to C3 as stated: after requesting a rewind of 6 under
max_rewind 8 and then shrinking max_rewind to 4 (both steps being routines
of sink.c, so the state is reachable), a further request_rewind(5) leaves
the pending count at 6, while the formula min(max(5, 6), 4) of the claim
gives 4: the stored count is never clamped down when max_rewind shrinks. -/
theorem pa_sink_request_rewind_counterexample :
    (pa_sink_request_rewind exSinkRewindShrunk 5).1.thread_info.rewind_nbytes ≠
      min (max (if 5 = 0 then exSinkRewindShrunk.thread_info.max_rewind else 5)
            exSinkRewindShrunk.thread_info.rewind_nbytes)
          exSinkRewindShrunk.thread_info.max_rewind := by decide

/-- C3 amended: for every call pa_sink_request_rewind(n) whose prior pending
count does not exceed max_rewind (true unless max_rewind was shrunk below an
already pending count), the pending count afterwards equals
min(max(n, prior), max_rewind), with n defaulted to max_rewind when zero. -/
theorem pa_sink_request_rewind_clamp (s : Sink) (n : Nat)
    (h : s.thread_info.rewind_nbytes ≤ s.thread_info.max_rewind) :
    (pa_sink_request_rewind s n).1.thread_info.rewind_nbytes =
      min (max (if n = 0 then s.thread_info.max_rewind else n)
            s.thread_info.rewind_nbytes)
          s.thread_info.max_rewind := by
  simp only [pa_sink_request_rewind]
  by_cases hn : n = 0
  · rw [if_pos hn]
    split <;> (try dsimp only) <;> omega
  · rw [if_neg hn]
    split <;> (try dsimp only) <;> omega

/-- Witness for the amended C3: a request of 6 on the concrete sink with
max_rewind 8 and no pending rewind. -/
theorem pa_sink_request_rewind_clamp_witness :
    (exSinkRewind.thread_info.rewind_nbytes ≤ exSinkRewind.thread_info.max_rewind) ∧
    (pa_sink_request_rewind exSinkRewind 6).1.thread_info.rewind_nbytes =
      min (max (if 6 = 0 then exSinkRewind.thread_info.max_rewind else 6)
            exSinkRewind.thread_info.rewind_nbytes)
          exSinkRewind.thread_info.max_rewind :=
  ⟨by decide, pa_sink_request_rewind_clamp exSinkRewind 6 (by decide)⟩

theorem latencyFoldStep_eq (l : List SinkInput) :
    ∀ acc : Nat, acc ≤ PA_USEC_INVALID →
      (∀ i ∈ l, i.requested_sink_latency ≤ PA_USEC_INVALID) →
      l.foldl
        (fun result i =>
          if i.requested_sink_latency != PA_USEC_INVALID &&
              (result == PA_USEC_INVALID || i.requested_sink_latency < result)
          then i.requested_sink_latency else result) acc
      = (suppliedLatencies l).foldl min acc := by
  induction l with
  | nil => intro acc _ _; rfl
  | cons i rest ih =>
    intro acc hacc hl
    have hi := hl i (List.mem_cons_self i rest)
    have hrest : ∀ j ∈ rest, j.requested_sink_latency ≤ PA_USEC_INVALID :=
      fun j hj => hl j (List.mem_cons_of_mem i hj)
    simp only [List.foldl_cons]
    by_cases hv : i.requested_sink_latency = PA_USEC_INVALID
    · have hsup : suppliedLatencies (i :: rest) = suppliedLatencies rest := by
        unfold suppliedLatencies
        rw [List.filter_cons_of_neg (by simp [hv])]
      rw [hsup, ← ih acc hacc hrest]
      congr 1
      simp [hv]
    · have hvlt : i.requested_sink_latency < PA_USEC_INVALID := Nat.lt_of_le_of_ne hi hv
      have hsup : suppliedLatencies (i :: rest) =
          i.requested_sink_latency :: suppliedLatencies rest := by
        unfold suppliedLatencies
        rw [List.filter_cons_of_pos (by simp [hv])]
        simp
      rw [hsup, List.foldl_cons,
        ← ih (min acc i.requested_sink_latency) (Nat.le_trans (Nat.min_le_left _ _) hacc) hrest]
      congr 1
      split
      · next hc =>
        simp only [Bool.and_eq_true, Bool.or_eq_true, bne_iff_ne, ne_eq, beq_iff_eq,
          decide_eq_true_eq] at hc
        omega
      · next hc =>
        simp only [Bool.and_eq_true, Bool.or_eq_true, bne_iff_ne, ne_eq, beq_iff_eq,
          decide_eq_true_eq] at hc
        omega

theorem requestedLatencyFold_eq (l : List SinkInput)
    (hl : ∀ i ∈ l, i.requested_sink_latency ≤ PA_USEC_INVALID) :
    requestedLatencyFold l = (suppliedLatencies l).foldl min PA_USEC_INVALID :=
  latencyFoldStep_eq l PA_USEC_INVALID (Nat.le_refl _) hl

theorem suppliedLatencies_mem {l : List SinkInput} {x : Nat}
    (hx : x ∈ suppliedLatencies l) :
    ∃ i ∈ l, i.requested_sink_latency = x ∧ x ≠ PA_USEC_INVALID := by
  unfold suppliedLatencies at hx
  obtain ⟨i, hi, rfl⟩ := List.mem_map.mp hx
  have hm := List.mem_filter.mp hi
  refine ⟨i, hm.1, rfl, ?_⟩
  simpa [bne_iff_ne] using hm.2

theorem clamp_bounds (mn mx m : Nat) (h : mn = 0 ∨ mx = 0 ∨ mn ≤ mx) :
    (0 < mn → mn ≤ (if mn > 0 && (if mx > 0 && m > mx then mx else m) < mn then mn
                    else (if mx > 0 && m > mx then mx else m))) ∧
    (0 < mx → (if mn > 0 && (if mx > 0 && m > mx then mx else m) < mn then mn
               else (if mx > 0 && m > mx then mx else m)) ≤ mx) := by
  constructor <;> intro h0 <;>
    (split <;> split <;>
      (try simp only [Bool.and_eq_true, decide_eq_true_eq] at *) <;> omega)

theorem latency_eval (s : Sink)
    (hv : s.thread_info.requested_latency_valid = false)
    (hw : ∀ i ∈ s.thread_info.inputs, i.requested_sink_latency ≤ PA_USEC_INVALID) :
    pa_sink_get_requested_latency_within_thread s =
      (specRequestedLatency s,
       { s with thread_info := { s.thread_info with
           requested_latency := specRequestedLatency s,
           requested_latency_valid := true } }) := by
  simp only [pa_sink_get_requested_latency_within_thread, hv]
  rw [if_neg Bool.false_ne_true]
  unfold requestedLatencyFold
  rw [latencyFoldStep_eq s.thread_info.inputs PA_USEC_INVALID (Nat.le_refl _) hw]
  cases hsup : suppliedLatencies s.thread_info.inputs with
  | nil => simp [specRequestedLatency, hsup]
  | cons v vs =>
    have hv' : v ∈ suppliedLatencies s.thread_info.inputs := by
      rw [hsup]
      exact List.mem_cons_self v vs
    obtain ⟨i, hi, hlat, hne⟩ := suppliedLatencies_mem hv'
    have hvlt : v < PA_USEC_INVALID := Nat.lt_of_le_of_ne (hlat ▸ hw i hi) hne
    have hfold : (v :: vs).foldl min PA_USEC_INVALID = vs.foldl min v := by
      simp only [List.foldl_cons]
      congr 1
      omega
    rw [hfold]
    have hm : vs.foldl min v ≤ v := foldlMin_le vs v
    have hmne : (vs.foldl min v != PA_USEC_INVALID) = true := by
      simp only [bne_iff_ne, ne_eq]
      omega
    rw [if_pos hmne]
    simp only [specRequestedLatency, hsup]

/-- C4: on an invalid cache, get_requested_latency_within_thread computes
the minimum requested latency over all inputs ignoring the unset sentinel
(specRequestedLatency states this the way the spec words it, with the clamp
applied when at least one input supplied a value, each endpoint only when
nonzero); the result lies in [min_latency, max_latency] when some input
supplied a value and the endpoints are nonzero; the result is cached, the
cache is marked valid, and a subsequent call returns the same value. -/
theorem pa_sink_requested_latency_spec (s : Sink)
    (hv : s.thread_info.requested_latency_valid = false)
    (hw : ∀ i ∈ s.thread_info.inputs, i.requested_sink_latency ≤ PA_USEC_INVALID)
    (hrange : s.min_latency = 0 ∨ s.max_latency = 0 ∨ s.min_latency ≤ s.max_latency) :
    (pa_sink_get_requested_latency_within_thread s).1 = specRequestedLatency s ∧
    (suppliedLatencies s.thread_info.inputs ≠ [] →
      (0 < s.min_latency →
        s.min_latency ≤ (pa_sink_get_requested_latency_within_thread s).1) ∧
      (0 < s.max_latency →
        (pa_sink_get_requested_latency_within_thread s).1 ≤ s.max_latency)) ∧
    ((pa_sink_get_requested_latency_within_thread s).2).thread_info.requested_latency_valid
      = true ∧
    ((pa_sink_get_requested_latency_within_thread s).2).thread_info.requested_latency =
      (pa_sink_get_requested_latency_within_thread s).1 ∧
    (pa_sink_get_requested_latency_within_thread
        ((pa_sink_get_requested_latency_within_thread s).2)).1 =
      (pa_sink_get_requested_latency_within_thread s).1 := by
  rw [latency_eval s hv hw]
  refine ⟨rfl, ?_, rfl, rfl, ?_⟩
  · intro hne
    simp only
    cases hsup : suppliedLatencies s.thread_info.inputs with
    | nil => exact absurd hsup hne
    | cons v vs =>
      simp only [specRequestedLatency, hsup]
      exact clamp_bounds s.min_latency s.max_latency (vs.foldl min v) hrange
  · simp [pa_sink_get_requested_latency_within_thread]

/-- Witness for C4 at a concrete sink with inputs requesting 30 and 10 usec
and latency range [15, 100]: the cached result is the minimum 10 clamped up
to 15. -/
theorem pa_sink_requested_latency_spec_witness :
    (pa_sink_get_requested_latency_within_thread exSinkLat).1 = specRequestedLatency exSinkLat ∧
    specRequestedLatency exSinkLat = 15 :=
  ⟨(pa_sink_requested_latency_spec exSinkLat (by decide) (by decide) (by decide)).1, by decide⟩

/-- C9: when no attached input supplied a requested sink latency (all carry
the unset sentinel), the computation returns the sentinel (pa_usec_t)-1
itself, without applying the min_latency/max_latency clamp (the nonzero
endpoints leave it untouched), caches the sentinel and marks the cache
valid, and a subsequent call returns the cached sentinel. -/
theorem pa_sink_requested_latency_all_unset (s : Sink)
    (hv : s.thread_info.requested_latency_valid = false)
    (hall : ∀ i ∈ s.thread_info.inputs, i.requested_sink_latency = PA_USEC_INVALID) :
    (pa_sink_get_requested_latency_within_thread s).1 = PA_USEC_INVALID ∧
    ((pa_sink_get_requested_latency_within_thread s).2).thread_info.requested_latency_valid
      = true ∧
    ((pa_sink_get_requested_latency_within_thread s).2).thread_info.requested_latency =
      PA_USEC_INVALID ∧
    (pa_sink_get_requested_latency_within_thread
        ((pa_sink_get_requested_latency_within_thread s).2)).1 = PA_USEC_INVALID := by
  have hw : ∀ i ∈ s.thread_info.inputs, i.requested_sink_latency ≤ PA_USEC_INVALID :=
    fun i hi => Nat.le_of_eq (hall i hi)
  have hsup : suppliedLatencies s.thread_info.inputs = [] := by
    unfold suppliedLatencies
    have hfil : s.thread_info.inputs.filter
        (fun i => i.requested_sink_latency != PA_USEC_INVALID) = [] := by
      rw [List.filter_eq_nil_iff]
      intro i hi
      simp [hall i hi]
    rw [hfil]
    rfl
  have hspec : specRequestedLatency s = PA_USEC_INVALID := by
    simp [specRequestedLatency, hsup]
  rw [latency_eval s hv hw, hspec]
  refine ⟨rfl, rfl, rfl, ?_⟩
  simp [pa_sink_get_requested_latency_within_thread]

/-- Witness for C9 at a concrete sink whose only input carries the sentinel
and whose latency range [5, 100] has nonzero endpoints. -/
theorem pa_sink_requested_latency_all_unset_witness :
    (pa_sink_get_requested_latency_within_thread exSinkLatUnset).1 = PA_USEC_INVALID ∧
    0 < exSinkLatUnset.min_latency :=
  ⟨(pa_sink_requested_latency_all_unset exSinkLatUnset (by decide) (by decide)).1, by decide⟩

/-- C5: for every sink and target state different from the current one, if
the installed set_state driver callback returns a negative value, the
transition aborts with an error and nothing changes: the returned sink is
the argument itself (so control-side state and render-side mirror keep
their prior values) and no events fire (no input suspend callback, no
SINK_STATE_CHANGED hook). -/
theorem sink_set_state_cb_failure (s : Sink) (st : SinkState) (cb : SinkState → Int)
    (hne : s.state ≠ st) (hcb : s.set_state_cb = some cb) (hf : cb st < 0) :
    sink_set_state s st = ⟨-1, s, []⟩ := by
  simp only [sink_set_state]
  have hbeq : (s.state == st) = false := by simp [hne]
  rw [hbeq, if_neg Bool.false_ne_true, hcb]
  dsimp only
  rw [if_pos (decide_eq_true hf)]

/-- Witness for C5: a concrete idle sink whose driver callback always
returns -1, asked to move to RUNNING. -/
theorem sink_set_state_cb_failure_witness :
    sink_set_state exSinkCbFail .RUNNING = ⟨-1, exSinkCbFail, []⟩ :=
  sink_set_state_cb_failure exSinkCbFail .RUNNING (fun _ => (-1 : Int)) (by decide) rfl
    (by decide)

/-- C6 (code bug): pa_sink_unlink is not idempotent when the installed
set_state driver callback fails. On the concrete idle sink whose callback
returns -1, the first unlink leaves the state IDLE (sink.c:347 ignores the
return of sink_set_state), so the second call fires the SINK_UNLINK hook,
unregisters the already unregistered name, posts REMOVE and fires
SINK_UNLINK_POST a second time, contradicting the idempotence the comment
at sink.c:327-329 promises. -/
theorem pa_sink_unlink_double_call_refires :
    (pa_sink_unlink exSinkCbFail).sink.state = SinkState.IDLE ∧
    (pa_sink_unlink (pa_sink_unlink exSinkCbFail).sink).events =
      [Event.HookSinkUnlink, Event.NameregUnregister "s0",
       Event.SubscriptionRemove 0, Event.HookSinkUnlinkPost] :=
  ⟨rfl, rfl⟩

/-- C7 (code bug): pa_sink_new with a successfully registered name and an
invalid-UTF-8 driver string returns null through pa_return_null_if_fail
(sink.c:151) without unregistering the name: the registration leaks, unlike
the hook-veto and monitor-failure paths which unwind it. -/
theorem pa_sink_new_invalid_driver_leaves_name_registered :
    pa_sink_new exNewEnv exNewDataBadDriver = (NewOutcome.invalidDriver, true) := rfl

/-- C8: fill_mix_info finalizes the shared window length to the minimum of
the initial length and the chunk lengths of every successful peek, the
pure-silence chunks included, while the returned contributor count is the
number of inputs that peeked a live non-silent chunk. Stated under the
contributor cap (at most maxinfo inputs attached) and positive peek
lengths. -/
theorem fill_mix_info_window_and_count (s : Sink) (L maxinfo : Nat)
    (hL : 0 < L)
    (hcap : s.thread_info.inputs.length ≤ maxinfo)
    (hpos : ∀ i ∈ s.thread_info.inputs, peekPositive i = true) :
    (fill_mix_info s L maxinfo).2 = (peekedLengths s.thread_info.inputs).foldl min L ∧
    (fill_mix_info s L maxinfo).1.length =
      (s.thread_info.inputs.filter peekLiveNonSilent).length := by
  obtain ⟨h1, h2⟩ := fmiLoop_window_count s.thread_info.inputs L maxinfo hL hcap hpos
  have hpos' : 0 < (fmiLoop s.thread_info.inputs L maxinfo).2 :=
    (fmiLoop_inv (fun _ => True) s.thread_info.inputs L maxinfo hL trivial
      (fun i hi pr hpr => by
        have h := hpos i hi
        unfold peekPositive at h
        rw [hpr] at h
        exact ⟨of_decide_eq_true h, trivial⟩)).1
  unfold fill_mix_info
  simp only
  rw [if_pos hpos']
  exact ⟨h1, h2⟩

/-- Witness for C8: a running sink with a live six-byte input and a silent
two-byte input; the window of a ten-byte request shrinks to 2 while only
one contributor is counted. -/
theorem fill_mix_info_window_and_count_witness :
    ((fill_mix_info exSinkTwo 10 32).2 =
        (peekedLengths exSinkTwo.thread_info.inputs).foldl min 10 ∧
      (fill_mix_info exSinkTwo 10 32).1.length =
        (exSinkTwo.thread_info.inputs.filter peekLiveNonSilent).length) ∧
    (fill_mix_info exSinkTwo 10 32).2 = 2 ∧
    (fill_mix_info exSinkTwo 10 32).1.length = 1 :=
  ⟨fill_mix_info_window_and_count exSinkTwo 10 32 (by decide) (by decide) (by decide),
   by decide, by decide⟩

/-- C10: pa_sink_set_description is a no-op (same sink, no events: no
property change, no monitor rename, no subscription event, no hook) when
the new description equals the stored one or both are absent; when they
differ the stored description actually changes, and the CHANGE subscription
event and SINK_PROPLIST_CHANGED hook fire exactly for a linked sink. -/
theorem pa_sink_set_description_frame (s : Sink) (d : Option String) :
    (d = s.descProp → pa_sink_set_description s d = (s, [])) ∧
    (d ≠ s.descProp →
      (pa_sink_set_description s d).1.descProp = d ∧
      (PA_SINK_LINKED s.state = true →
        Event.SubscriptionChange s.index ∈ (pa_sink_set_description s d).2 ∧
        Event.HookSinkProplistChanged ∈ (pa_sink_set_description s d).2) ∧
      (PA_SINK_LINKED s.state = false →
        Event.SubscriptionChange s.index ∉ (pa_sink_set_description s d).2 ∧
        Event.HookSinkProplistChanged ∉ (pa_sink_set_description s d).2)) := by
  unfold pa_sink_set_description
  constructor
  · intro hd
    subst hd
    cases h : s.descProp <;> simp [h]
  · intro hd
    cases hdo : d with
    | none =>
      cases hso : s.descProp with
      | none => exact absurd (by rw [hdo, hso]) hd
      | some o =>
        rw [if_neg (by simp), if_neg (by simp)]
        refine ⟨rfl, ?_, ?_⟩ <;> intro hl <;>
          cases hmo : s.hasMonitor <;> simp [hl, hmo]
    | some v =>
      cases hso : s.descProp with
      | none =>
        rw [if_neg (by simp), if_neg (by simp)]
        refine ⟨rfl, ?_, ?_⟩ <;> intro hl <;>
          cases hmo : s.hasMonitor <;> simp [hl, hmo]
      | some o =>
        have hone : o ≠ v := fun he => hd (by rw [hdo, hso, he])
        rw [if_neg (by simp), if_neg (by simp [hone])]
        refine ⟨rfl, ?_, ?_⟩ <;> intro hl <;>
          cases hmo : s.hasMonitor <;> simp [hl, hmo]

/-- Witness for C10 at a concrete linked sink with a stored description:
setting the same string is a no-op, setting a different one stores it. -/
theorem pa_sink_set_description_frame_witness :
    pa_sink_set_description exSinkDesc (some "Built-in Audio") = (exSinkDesc, []) ∧
    (pa_sink_set_description exSinkDesc (some "USB Audio")).1.descProp = some "USB Audio" :=
  ⟨(pa_sink_set_description_frame exSinkDesc (some "Built-in Audio")).1 rfl,
   ((pa_sink_set_description_frame exSinkDesc (some "USB Audio")).2 (by decide)).1⟩

end PulseSink
